import Mathlib

/-!
Verification of the resilient completion pipeline in `src/api/chat.js`
(the Next.js Pages API chat handler).

The JavaScript handler is shallowly embedded: JSON values become the
inductive type `Json`, the relevant JavaScript runtime primitives
(`String.prototype.trim`, the regex replaces, property access with
optional chaining, truthiness, `JSON.parse`) are modelled as executable
Lean functions, and the handler itself becomes a pure function from the
request (method, body) and the upstream fetch outcome to an HTTP
response value.  Network, timers and logging are represented by the
`FetchOutcome` oracle: one abstract outcome per performed fetch.
-/

namespace ChatApi

/-- JSON values as produced by JavaScript `JSON.parse` / consumed by
`res.json`.  Numbers are kept exact as `mantissa * 10 ^ exponent`
(JavaScript stores IEEE-754 doubles; the rounding of extreme values is
not modelled — no behaviour verified here depends on it).  Object
fields are an ordered association list; the parser below canonicalises
duplicate keys the way JavaScript does (last occurrence wins), so
`Json.obj` lists reaching the handler from the parser have unique keys. -/
inductive Json where
  | null : Json
  | bool (b : Bool) : Json
  | num (m : Int) (e : Int) : Json
  | str (s : String) : Json
  | arr (elems : List Json) : Json
  | obj (fields : List (String × Json)) : Json

/- ---------------------- characters ---------------------- -/

def quoteChar : Char := Char.ofNat 34
def apostropheChar : Char := Char.ofNat 39
def backslashChar : Char := Char.ofNat 92
def backtickChar : Char := Char.ofNat 96
def openBrace : Char := Char.ofNat 123
def closeBrace : Char := Char.ofNat 125

/-- ASCII-only lower casing, the canonicalisation a case-insensitive
JavaScript regex without the `u` flag performs on ASCII letters. -/
def asciiLower (c : Char) : Char :=
  if 65 ≤ c.toNat ∧ c.toNat ≤ 90 then Char.ofNat (c.toNat + 32) else c

/-- The JavaScript whitespace class: the characters matched by regex
`\s` and removed by `String.prototype.trim` (WhiteSpace ∪
LineTerminator of ECMA-262). -/
def isJsWhitespace (c : Char) : Bool :=
  let n := c.toNat
  n = 0x09 || n = 0x0A || n = 0x0B || n = 0x0C || n = 0x0D || n = 0x20 ||
  n = 0xA0 || n = 0x1680 || (0x2000 ≤ n && n ≤ 0x200A) || n = 0x2028 ||
  n = 0x2029 || n = 0x202F || n = 0x205F || n = 0x3000 || n = 0xFEFF

/-- `String.prototype.trim`. -/
def jsTrim (s : String) : String :=
  String.mk (((s.toList.dropWhile isJsWhitespace).reverse.dropWhile isJsWhitespace).reverse)

/-- Worker for `.replace(/\s+/g, " ")`: every maximal run of JavaScript
whitespace becomes a single space.  `prevWs` records whether the
previous character belonged to a run already replaced. -/
def collapseGo : Bool → List Char → List Char
  | _, [] => []
  | prevWs, c :: rest =>
    if isJsWhitespace c then
      if prevWs then collapseGo true rest
      else Char.ofNat 32 :: collapseGo true rest
    else c :: collapseGo false rest

/-- `.replace(/\s+/g, " ")`. -/
def collapseWs (s : String) : String :=
  String.mk (collapseGo false s.toList)

/-- JavaScript `String.prototype.length`: UTF-16 code units, so
characters beyond the BMP count twice. -/
def jsLength (s : String) : Nat :=
  s.toList.foldl (fun n c => n + (if 0x10000 ≤ c.toNat then 2 else 1)) 0

/- ---------------------- objects and property access ---------------------- -/

/-- Own-property lookup on an object's field list (first occurrence;
field lists built by the parser or by `setOwn` have unique keys). -/
def getField : List (String × Json) → String → Option Json
  | [], _ => none
  | (k, v) :: rest, key => if k = key then some v else getField rest key

/-- JavaScript property assignment `o[key] = v` on an object: overwrite
an existing key in place, else append. -/
def setOwn : List (String × Json) → String → Json → List (String × Json)
  | [], key, v => [(key, v)]
  | (k, w) :: rest, key, v =>
    if k = key then (k, v) :: rest else (k, w) :: setOwn rest key v

def isDigitChar (c : Char) : Bool := 48 ≤ c.toNat && c.toNat ≤ 57

def digitsToNat (cs : List Char) : Nat :=
  cs.foldl (fun n c => n * 10 + (c.toNat - 48)) 0

/-- A property key that is a canonical decimal numeral (the string
form of a natural number: `0`, or a nonzero digit followed by digits)
— the keys JavaScript treats as array/string indices. -/
def decimalIndex? (key : String) : Option Nat :=
  match key.toList with
  | [] => none
  | c :: rest =>
    if (c :: rest).all isDigitChar then
      if c = Char.ofNat 48 ∧ rest ≠ [] then none
      else some (digitsToNat (c :: rest))
    else none

/-- JavaScript property read `value[key]` (`undefined` is `none`).
On arrays, canonical numeric strings index the elements and `length`
is the element count; on strings they index the characters (modelled
at scalar granularity).  Reads on `null`, booleans and numbers of the
keys used by the handler yield `undefined`. -/
def jsGet : Json → String → Option Json
  | .obj fields, key => getField fields key
  | .arr xs, key =>
    if key = "length" then some (.num (Int.ofNat xs.length) 0)
    else
      match decimalIndex? key with
      | some n => xs.get? n
      | none => none
  | .str s, key =>
    if key = "length" then some (.num (Int.ofNat (jsLength s)) 0)
    else
      match decimalIndex? key with
      | some n => (s.toList.get? n).map (fun c => .str (String.mk [c]))
      | none => none
  | _, _ => none

/-- Optional chaining `o?.[key]` on a possibly-`undefined` value. -/
def jsGetOpt (o : Option Json) (key : String) : Option Json :=
  o.bind (fun v => jsGet v key)

/-- JavaScript truthiness of a JSON value (`null`, `false`, `0`, `""`
are falsy; objects and arrays are always truthy). -/
def jsTruthy : Json → Bool
  | .null => false
  | .bool b => b
  | .num m _ => m ≠ 0
  | .str s => s ≠ ""
  | .arr _ => true
  | .obj _ => true

/-- Truthiness of an optional-chaining result (`undefined` is falsy). -/
def jsTruthyOpt : Option Json → Bool
  | none => false
  | some v => jsTruthy v

/- ---------------------- JSON.parse ---------------------- -/

/-- JSON insignificant whitespace (ECMA-404: tab, LF, CR, space only —
narrower than the JavaScript `\s` class). -/
def skipJsonWs : List Char → List Char :=
  List.dropWhile (fun c => c.toNat = 0x20 || c.toNat = 0x09 || c.toNat = 0x0A || c.toNat = 0x0D)

def hexVal (c : Char) : Option Nat :=
  if 48 ≤ c.toNat ∧ c.toNat ≤ 57 then some (c.toNat - 48)
  else if 97 ≤ c.toNat ∧ c.toNat ≤ 102 then some (c.toNat - 87)
  else if 65 ≤ c.toNat ∧ c.toNat ≤ 70 then some (c.toNat - 55)
  else none

/-- Body of a JSON string literal, after the opening quote.  Escapes
follow ECMA-404; `\uXXXX` yields the scalar `Char.ofNat` of its code
unit (lone surrogates, unrepresentable as Lean `Char`, collapse to the
`Char.ofNat` default — no verified behaviour depends on them).
Unescaped control characters are rejected. -/
def parseStringChars : List Char → List Char → Option (String × List Char)
  | _, [] => none
  | acc, c :: rest =>
    if c = quoteChar then some (String.mk acc.reverse, rest)
    else if c = backslashChar then
      match rest with
      | [] => none
      | e :: rest2 =>
        if e = quoteChar then parseStringChars (quoteChar :: acc) rest2
        else if e = backslashChar then parseStringChars (backslashChar :: acc) rest2
        else if e = Char.ofNat 47 then parseStringChars (Char.ofNat 47 :: acc) rest2
        else if e = 'b' then parseStringChars (Char.ofNat 8 :: acc) rest2
        else if e = 'f' then parseStringChars (Char.ofNat 12 :: acc) rest2
        else if e = 'n' then parseStringChars (Char.ofNat 10 :: acc) rest2
        else if e = 'r' then parseStringChars (Char.ofNat 13 :: acc) rest2
        else if e = 't' then parseStringChars (Char.ofNat 9 :: acc) rest2
        else if e = 'u' then
          match rest2 with
          | h1 :: h2 :: h3 :: h4 :: rest3 =>
            match hexVal h1, hexVal h2, hexVal h3, hexVal h4 with
            | some a, some b, some c1, some d =>
              parseStringChars (Char.ofNat (a * 4096 + b * 256 + c1 * 16 + d) :: acc) rest3
            | _, _, _, _ => none
          | _ => none
        else none
    else if c.toNat < 0x20 then none
    else parseStringChars (c :: acc) rest

/-- A JSON number starting at the head of the input.  Returns the exact
value as `mantissa * 10 ^ exponent` together with the unconsumed rest.
Where the grammar requires a digit after `.` or an exponent marker and
none follows, the number stops before that marker; the stray character
then fails the caller's delimiter check, exactly as `JSON.parse`
rejects such inputs. -/
def parseNumberAt (cs : List Char) : Option (Json × List Char) :=
  let signed := match cs with
    | c :: rest => if c = Char.ofNat 45 then (true, rest) else (false, cs)
    | [] => (false, cs)
  let neg := signed.1
  match signed.2 with
  | [] => none
  | c :: rest =>
    if ¬ isDigitChar c then none
    else
      -- integer part: a lone `0`, or a nonzero digit followed by digits
      let ipart : Nat × List Char :=
        if c = Char.ofNat 48 then (0, rest)
        else
          let digs := (c :: rest).takeWhile isDigitChar
          (digitsToNat digs, (c :: rest).dropWhile isDigitChar)
      let intVal := ipart.1
      let afterInt := ipart.2
      -- fractional part
      let fpart : Nat × Nat × List Char :=
        match afterInt with
        | d :: rest2 =>
          if d = Char.ofNat 46 then
            let digs := rest2.takeWhile isDigitChar
            if digs.isEmpty then (0, 0, afterInt)
            else (digitsToNat digs, digs.length, rest2.dropWhile isDigitChar)
          else (0, 0, afterInt)
        | [] => (0, 0, afterInt)
      let fracVal := fpart.1
      let fracLen := fpart.2.1
      let afterFrac := fpart.2.2
      -- exponent part
      let epart : Int × List Char :=
        match afterFrac with
        | x :: rest2 =>
          if x = 'e' ∨ x = 'E' then
            let esigned : Bool × List Char := match rest2 with
              | y :: rest3 =>
                if y = Char.ofNat 45 then (true, rest3)
                else if y = Char.ofNat 43 then (false, rest3)
                else (false, rest2)
              | [] => (false, rest2)
            let digs := esigned.2.takeWhile isDigitChar
            if digs.isEmpty then (0, afterFrac)
            else
              let ev : Int := Int.ofNat (digitsToNat digs)
              ((if esigned.1 then -ev else ev), esigned.2.dropWhile isDigitChar)
          else (0, afterFrac)
        | [] => (0, afterFrac)
      let mAbs : Int := Int.ofNat (intVal * 10 ^ fracLen + fracVal)
      let m : Int := if neg then -mAbs else mAbs
      some (.num m (epart.1 - Int.ofNat fracLen), epart.2)

mutual

/-- A JSON value (fuel-indexed recursive descent; the fuel only bounds
nesting and `jsonParse` supplies more than the input length). -/
def parseValue : Nat → List Char → Option (Json × List Char)
  | 0, _ => none
  | Nat.succ fuel, cs =>
    match skipJsonWs cs with
    | [] => none
    | c :: rest =>
      if c = quoteChar then
        match parseStringChars [] rest with
        | some (s, r) => some (.str s, r)
        | none => none
      else if c = openBrace then parseMembers fuel (skipJsonWs rest) [] true
      else if c = Char.ofNat 91 then parseElems fuel (skipJsonWs rest) [] true
      else if c = 't' then
        match rest with
        | 'r' :: 'u' :: 'e' :: r => some (.bool true, r)
        | _ => none
      else if c = 'f' then
        match rest with
        | 'a' :: 'l' :: 's' :: 'e' :: r => some (.bool false, r)
        | _ => none
      else if c = 'n' then
        match rest with
        | 'u' :: 'l' :: 'l' :: r => some (.null, r)
        | _ => none
      else parseNumberAt (c :: rest)

/-- Members of an object after `{` (input already whitespace-skipped).
Duplicate keys overwrite, as in JavaScript (last occurrence wins). -/
def parseMembers : Nat → List Char → List (String × Json) → Bool → Option (Json × List Char)
  | 0, _, _, _ => none
  | Nat.succ fuel, cs, acc, first =>
    match cs with
    | [] => none
    | c :: rest =>
      if first ∧ c = closeBrace then some (.obj acc, rest)
      else if c = quoteChar then
        match parseStringChars [] rest with
        | none => none
        | some (key, r1) =>
          match skipJsonWs r1 with
          | c2 :: r2 =>
            if c2 = ':' then
              match parseValue fuel r2 with
              | none => none
              | some (v, r3) =>
                match skipJsonWs r3 with
                | c3 :: r4 =>
                  if c3 = ',' then parseMembers fuel (skipJsonWs r4) (setOwn acc key v) false
                  else if c3 = closeBrace then some (.obj (setOwn acc key v), r4)
                  else none
                | [] => none
            else none
          | [] => none
      else none

/-- Elements of an array after `[` (input already whitespace-skipped). -/
def parseElems : Nat → List Char → List Json → Bool → Option (Json × List Char)
  | 0, _, _, _ => none
  | Nat.succ fuel, cs, acc, first =>
    match cs with
    | [] => none
    | c :: rest =>
      if first ∧ c = Char.ofNat 93 then some (.arr acc.reverse, rest)
      else
        match parseValue fuel cs with
        | none => none
        | some (v, r1) =>
          match skipJsonWs r1 with
          | c2 :: r2 =>
            if c2 = ',' then parseElems fuel r2 (v :: acc) false
            else if c2 = Char.ofNat 93 then some (.arr (v :: acc).reverse, r2)
            else none
          | [] => none

end

/-- JavaScript `JSON.parse`, as a total function: `none` models the
`SyntaxError` raised on invalid input. -/
def jsonParse (s : String) : Option Json :=
  match parseValue (s.toList.length + 1) s.toList with
  | some (v, rest) => if (skipJsonWs rest).isEmpty then some v else none
  | none => none

/- ---------------------- coerceJsonFromModel ---------------------- -/

/-- Model of `.replace(/^```(?:json)?\s*/i, "")`: strip a leading code fence,
its optional case-insensitive `json` tag, and following whitespace. -/
def stripLeadingFence (s : String) : String :=
  match s.toList with
  | b1 :: b2 :: b3 :: rest =>
    if b1 = backtickChar ∧ b2 = backtickChar ∧ b3 = backtickChar then
      let afterTag :=
        match rest with
        | c1 :: c2 :: c3 :: c4 :: r =>
          if asciiLower c1 = 'j' ∧ asciiLower c2 = 's' ∧ asciiLower c3 = 'o' ∧
              asciiLower c4 = 'n' then r
          else rest
        | _ => rest
      String.mk (afterTag.dropWhile isJsWhitespace)
    else s
  | _ => s

/-- Model of `.replace(/```$/i, "")`: drop a trailing code fence. -/
def stripTrailingFence (s : String) : String :=
  match s.toList.reverse with
  | b1 :: b2 :: b3 :: restRev =>
    if b1 = backtickChar ∧ b2 = backtickChar ∧ b3 = backtickChar then
      String.mk restRev.reverse
    else s
  | _ => s

/-- Model of `.replace(/[“”″]/g, DQUOTE).replace(/[‘’′]/g, SQUOTE)`:
typographic double quotes and double prime become `"`, typographic
single quotes and prime become the apostrophe. -/
def normalizeQuotes (s : String) : String :=
  String.mk (s.toList.map (fun c =>
    if c.toNat = 0x201C ∨ c.toNat = 0x201D ∨ c.toNat = 0x2033 then quoteChar
    else if c.toNat = 0x2018 ∨ c.toNat = 0x2019 ∨ c.toNat = 0x2032 then apostropheChar
    else c))

/-- The full cleaning chain of `coerceJsonFromModel`:
`text.trim().replace(lead fence).replace(trail fence).trim()` followed
by the two quote-normalising replaces. -/
def cleanModelText (text : String) : String :=
  normalizeQuotes (jsTrim (stripTrailingFence (stripLeadingFence (jsTrim text))))

/-- Index of the first occurrence of a character. -/
def firstIdxOf (t : Char) : List Char → Option Nat
  | [] => none
  | c :: rest => if c = t then some 0 else (firstIdxOf t rest).map (· + 1)

/-- Index of the last occurrence of a character. -/
def lastIdxOf (t : Char) : List Char → Option Nat
  | [] => none
  | c :: rest =>
    match lastIdxOf t rest with
    | some j => some (j + 1)
    | none => if c = t then some 0 else none

/-- The regex engine's search for `/\{[\s\S]*\}/`: try each start
position left to right; at an opening brace the greedy `[\s\S]*`
reaches to the last closing brace of the remaining input. -/
def regexBraceMatch : List Char → Option (List Char)
  | [] => none
  | c :: rest =>
    if c = openBrace then
      match lastIdxOf closeBrace rest with
      | some j => some (c :: rest.take (j + 1))
      | none => regexBraceMatch rest
    else regexBraceMatch rest

/-- `s.match(/\{[\s\S]*\}/)`, first capture as a string. -/
def braceSpanMatch (s : String) : Option String :=
  (regexBraceMatch s.toList).map String.mk

/-- Function `coerceJsonFromModel` from `src/api/chat.js`: `null` for
non-string input; otherwise clean the text, try a direct `JSON.parse`,
and on failure try to parse the first-`{`-to-last-`}` span.  Both
failed parses are caught; `none` models the JavaScript `null`. -/
def coerceJsonFromModel : Json → Option Json
  | .str text =>
    let s := cleanModelText text
    match jsonParse s with
    | some v => some v
    | none =>
      match braceSpanMatch s with
      | some sub => jsonParse sub
      | none => none
  | _ => none

/- ---------------------- handler ---------------------- -/

/-- Server-side configuration read from the environment at module
load: `GEMINI_API_KEY`, `GOOGLE_API_KEY` and whether `NODE_ENV` is
`production` (`DEV` is its negation). -/
structure Config where
  geminiKey : Option String
  googleKey : Option String
  production : Bool

/-- Truthiness of an environment variable (`undefined` and the empty
string are falsy). -/
def truthyEnvStr : Option String → Bool
  | none => false
  | some s => s ≠ ""

/-- Model of `process.env.GEMINI_API_KEY || process.env.GOOGLE_API_KEY`. -/
def resolvedApiKey (cfg : Config) : Option String :=
  if truthyEnvStr cfg.geminiKey then cfg.geminiKey else cfg.googleKey

/-- The `!API_KEY` guard. -/
def apiKeyMissing (cfg : Config) : Bool :=
  ¬ truthyEnvStr (resolvedApiKey cfg)

/-- Outcome of the single `fetch` of the upstream completion service,
as observed by the handler's `try` block.  `response st body` is a
settled response with HTTP status `st`, where `body` is the result of
`await r.json()` (`none` when that call throws on a non-JSON body).
`abortError` is the rejection raised when the 15-second
`AbortController` deadline (`setTimeout(..., 15000)`) fires and aborts
the in-flight request; `networkError` is any other transport-level
rejection (DNS failure, connection reset, ...). -/
inductive FetchOutcome where
  | response (status : Nat) (body : Option Json) : FetchOutcome
  | abortError : FetchOutcome
  | networkError (msg : String) : FetchOutcome

/-- The wall-clock deadline, in milliseconds, after which the
in-flight upstream call is aborted. -/
def UPSTREAM_TIMEOUT_MS : Nat := 15000

/-- Property `Response.ok`: status in the 2xx range. -/
def fetchOk (st : Nat) : Bool := 200 ≤ st && st ≤ 299

/-- The response the handler hands to the HTTP layer: status code, the
JSON body passed to `res.json`, and the `Allow` header when set (the
`Content-Type`/`Cache-Control` headers set by `send` are fixed and not
modelled). -/
structure HttpResponse where
  status : Nat
  body : Json
  allow : Option String

/-- An error envelope `{ error: message }`. -/
def errObj (msg : String) : Json := .obj [("error", .str msg)]

/-- Model of `data?.promptFeedback?.blockReason`. -/
def blockReasonOf (data : Json) : Option Json :=
  jsGetOpt (jsGetOpt (some data) "promptFeedback") "blockReason"

/-- Model of `data?.candidates?.[0]?.content?.parts?.[0]?.text`. -/
def candidateText (data : Json) : Option Json :=
  jsGetOpt (jsGetOpt (jsGetOpt (jsGetOpt (jsGetOpt (jsGetOpt
    (some data) "candidates") "0") "content") "parts") "0") "text"

/-- Decimal rendering of an exact `m * 10 ^ e` number for template
interpolation.  (JavaScript prints doubles in shortest-round-trip
form, with exponent notation at extreme magnitudes; that formatting
detail is approximated by plain decimals.  No verified behaviour
inspects these strings.) -/
def numToDisplay (m e : Int) : String :=
  if 0 ≤ e then toString (m * (10 : Int) ^ e.toNat)
  else
    let d := e.natAbs
    let sign := if m < 0 then "-" else ""
    let digits := toString m.natAbs
    let padded :=
      if digits.length ≤ d then
        String.mk (List.replicate (d + 1 - digits.length) (Char.ofNat 48)) ++ digits
      else digits
    let k := padded.length - d
    sign ++ String.mk (padded.toList.take k) ++ "." ++ String.mk (padded.toList.drop k)

/-- Rendering of array elements under `Array.prototype.join` (`null`
and `undefined` elements render empty, others via `String(v)`). -/
def jsDisplayJoin : List Json → List String
  | [] => []
  | .null :: xs => "" :: jsDisplayJoin xs
  | .bool b :: xs => (if b then "true" else "false") :: jsDisplayJoin xs
  | .num m e :: xs => numToDisplay m e :: jsDisplayJoin xs
  | .str s :: xs => s :: jsDisplayJoin xs
  | .obj _ :: xs => "[object Object]" :: jsDisplayJoin xs
  | .arr ys :: xs => String.intercalate "," (jsDisplayJoin ys) :: jsDisplayJoin xs

/-- JavaScript `String(v)` as used by template literals. -/
def jsToDisplay : Json → String
  | .null => "null"
  | .bool b => if b then "true" else "false"
  | .num m e => numToDisplay m e
  | .str s => s
  | .obj _ => "[object Object]"
  | .arr xs => String.intercalate "," (jsDisplayJoin xs)

/-- Body of the non-2xx passthrough:
`DEV` chooses the detailed message over the generic one, where the detail is
`data?.error?.message || "Upstream error"`. -/
def upstreamErrBody (production : Bool) (st : Nat) (data : Json) : Json :=
  let msgVal := jsGetOpt (jsGetOpt (some data) "error") "message"
  let msg :=
    match msgVal with
    | some v => if jsTruthy v then jsToDisplay v else "Upstream error"
    | none => "Upstream error"
  errObj (if production then "Upstream error" else "Upstream " ++ toString st ++ ": " ++ msg)

/-- The hard-coded safety-block reply (source lines 148–158). -/
def safeCrisisReply : Json := .obj
  [("message_student", .str "I want to help, but I can’t respond to that directly. If you’re in danger or thinking about self-harm, in the U.S. you can call or text 988. You can also reach a trusted adult or school counselor."),
   ("feeling_label", .str "unsure"),
   ("skill_tag", .arr []),
   ("tip_summary", .str "Reach out to a trusted adult; consider crisis support."),
   ("next_step_prompt", .str "Tell a counselor, teacher, parent or guardian what’s going on."),
   ("resource_suggestion", .str "U.S. Suicide & Crisis Lifeline: 988"),
   ("escalation", .str "crisis-988"),
   ("crisisFlag", .bool true)]

/-- The fixed fallback object assigned when `coerceJsonFromModel`
yields nothing usable (source lines 173–182); `crisisFlag` is added
afterwards by the final assignment. -/
def fallbackReply : Json := .obj
  [("message_student", .str "I want to help, but I couldn’t process that. Could you say it a different way?"),
   ("feeling_label", .str "unsure"),
   ("skill_tag", .arr []),
   ("tip_summary", .str ""),
   ("next_step_prompt", .str ""),
   ("resource_suggestion", .str ""),
   ("escalation", .str "none")]

/-- Strict comparison `parsed.escalation === "crisis-988"`: strict equality against a
string literal holds only for that exact string value. -/
def isCrisisEscalation (fields : List (String × Json)) : Bool :=
  match getField fields "escalation" with
  | some (.str s) => s = "crisis-988"
  | _ => false

/-- Model of `parsed.crisisFlag = parsed.escalation === "crisis-988";
return send(res, 200, parsed)`.  On an object the field is written
(overwriting any model-supplied value).  On an array the write targets
a non-index own property which `JSON.stringify` — hence `res.json` —
omits, so the serialized body is the array unchanged.  On a truthy
primitive (non-zero number, non-empty string, `true`) the write throws
`TypeError` in strict mode (the file is an ES module); the outer
`catch` turns that into the 500 `Server error` envelope. -/
def finishReply : Json → HttpResponse
  | .obj fields =>
    ⟨200, .obj (setOwn fields "crisisFlag" (.bool (isCrisisEscalation fields))), none⟩
  | .arr xs => ⟨200, .arr xs, none⟩
  | _ => ⟨500, errObj "Server error", none⟩

/-- Model of `let parsed = coerceJsonFromModel(jsonText); if (!parsed) parsed =
fallback; ...`: a falsy parse result (`null` from the coercer, or a
parsed `null`/`false`/`0`/`""`) is replaced by the fallback object. -/
def extractStage (jsonText : String) : HttpResponse :=
  match coerceJsonFromModel (.str jsonText) with
  | some v => if jsTruthy v then finishReply v else finishReply fallbackReply
  | none => finishReply fallbackReply

/-- The post-fetch part of the handler: non-2xx passthrough, safety
block, upstream shape check, extraction. -/
def afterFetch (production : Bool) : FetchOutcome → HttpResponse
  | .abortError => ⟨504, errObj "Upstream timeout", none⟩
  | .networkError _ => ⟨504, errObj "Upstream fetch failed", none⟩
  | .response _ none => ⟨504, errObj "Upstream fetch failed", none⟩
  | .response st (some data) =>
    if fetchOk st then
      if jsTruthyOpt (blockReasonOf data) then ⟨200, safeCrisisReply, none⟩
      else
        match candidateText data with
        | some (.str t) => extractStage t
        | _ => ⟨502, errObj "Invalid upstream response shape", none⟩
    else ⟨st, upstreamErrBody production st data, none⟩

/-- Model of `req.body || {}`: a missing or falsy body is replaced by the empty
object. -/
def effectiveBody : Option Json → Json
  | some b => if jsTruthy b then b else .obj []
  | none => .obj []

/-- Model of `typeof body[key] === "string" ? body[key] : ""`. -/
def stringFieldOrEmpty (body : Json) (key : String) : String :=
  match jsGet body key with
  | some (.str s) => s
  | _ => ""

/-- Model of `const raw = (typeof body.text === "string" ? body.text : "") ||
(typeof body.userMessage === "string" ? body.userMessage : "")`:
JavaScript `||` falls through on the empty string. -/
def readRawText (body : Json) : String :=
  let t := stringFieldOrEmpty body "text"
  if t = "" then stringFieldOrEmpty body "userMessage" else t

/-- Model of `(raw || "").trim().replace(/\s+/g, " ")` (`raw` is already a
string, so `|| ""` is the identity on it). -/
def normalizeInput (raw : String) : String :=
  collapseWs (jsTrim raw)

/-- The chat handler of `src/api/chat.js`, as a function of the
configuration, the request method and parsed body, and the oracle of
upstream fetch outcomes (`upstream n` is the outcome of the `n`-th
fetch the handler would perform; the code performs exactly one, so
only `upstream 0` is consulted). -/
def handler (cfg : Config) (method : String) (reqBody : Option Json)
    (upstream : Nat → FetchOutcome) : HttpResponse :=
  if method = "POST" then
    if apiKeyMissing cfg then
      ⟨500, errObj "Missing GEMINI_API_KEY on server", none⟩
    else
      let userText := normalizeInput (readRawText (effectiveBody reqBody))
      if userText = "" then
        ⟨400, errObj "Missing \u0027text\u0027 (or \u0027userMessage\u0027)", none⟩
      else if 2000 < jsLength userText then
        ⟨413, errObj "Input too long", none⟩
      else afterFetch cfg.production (upstream 0)
  else ⟨405, errObj "Method not allowed", some "POST"⟩

/- ---------------------- derived notions used by the claims ---------------------- -/

/-- Consistency of the derived crisis flag in a reply body: the
`crisisFlag` field is `true` exactly when the `escalation` field is
the string `crisis-988`. -/
def crisisConsistent (b : Json) : Prop :=
  jsGet b "crisisFlag" = some (.bool true) ↔ jsGet b "escalation" = some (.str "crisis-988")

/-- The required StructuredReply fields. -/
def requiredFields : List String :=
  ["message_student", "feeling_label", "skill_tag", "tip_summary",
   "next_step_prompt", "escalation", "crisisFlag"]

/-- A reply body carries every required StructuredReply field. -/
def hasAllRequired (b : Json) : Bool :=
  requiredFields.all (fun k => (jsGet b k).isSome)

/-- The fallback object after the final `crisisFlag` assignment: the
body returned on the extraction-failure path. -/
def fallbackWithFlag : Json := .obj
  [("message_student", .str "I want to help, but I couldn’t process that. Could you say it a different way?"),
   ("feeling_label", .str "unsure"),
   ("skill_tag", .arr []),
   ("tip_summary", .str ""),
   ("next_step_prompt", .str ""),
   ("resource_suggestion", .str ""),
   ("escalation", .str "none"),
   ("crisisFlag", .bool false)]

/-- The normalized text the handler validates, as a function of the
raw request body. -/
def normalizedOf (reqBody : Option Json) : String :=
  normalizeInput (readRawText (effectiveBody reqBody))

/- ---------------------- witness fixtures ---------------------- -/

/-- A configuration with a credential, production mode. -/
def cfgW : Config := ⟨some "k", none, true⟩

/-- A request body carrying a short text. -/
def bodyW : Option Json := some (.obj [("text", .str "hi")])

/-- An upstream payload whose only content is a truthy safety block. -/
def dataBlockW : Json :=
  .obj [("promptFeedback", .obj [("blockReason", .str "SAFETY")])]

def upBlockW : Nat → FetchOutcome := fun _ => .response 200 (some dataBlockW)

/-- An upstream payload carrying candidate text `t` at
`candidates[0].content.parts[0].text`. -/
def mkCandidateData (t : String) : Json :=
  .obj [("candidates", .arr [.obj [("content",
    .obj [("parts", .arr [.obj [("text", .str t)]])])]])]

def upTextW (t : String) : Nat → FetchOutcome :=
  fun _ => .response 200 (some (mkCandidateData t))

/-- A 2001-character input (2001 letters `a`). -/
def longTextW : String := String.mk (List.replicate 2001 (Char.ofNat 97))

def longBodyW : Option Json := some (.obj [("text", .str longTextW)])

/-- An upstream payload whose `promptFeedback.blockReason` is present
but falsy (the empty string), alongside ordinary candidate text. -/
def dataEmptyBlockW : Json :=
  .obj [("promptFeedback", .obj [("blockReason", .str "")]),
        ("candidates", .arr [.obj [("content",
          .obj [("parts", .arr [.obj [("text", .str "no json")]])])]])]

/- ---------------------- spec-side extractor (for C3) ---------------------- -/

/-- The greedy brace span as the specification words it: the substring
from the first opening brace to the last closing brace, attempted only
when that span is non-degenerate. -/
def specBraceSpanList (cs : List Char) : Option (List Char) :=
  match firstIdxOf openBrace cs, lastIdxOf closeBrace cs with
  | some i, some j => if i < j then some ((cs.drop i).take (j - i + 1)) else none
  | _, _ => none

def specBraceSpan (s : String) : Option String :=
  (specBraceSpanList s.toList).map String.mk

/-- The recovery pipeline exactly as the specification describes it:
strip fences and trim, normalize typographic quotation marks, attempt
a direct parse, and only on failure attempt the greedy
first-`{`-to-last-`}` span. -/
def extractorSpec (s : String) : Option Json :=
  let cleaned := normalizeQuotes (jsTrim (stripTrailingFence (stripLeadingFence (jsTrim s))))
  match jsonParse cleaned with
  | some v => some v
  | none =>
    match specBraceSpan cleaned with
    | some sub => jsonParse sub
    | none => none

/- ---------------------- association-list lemmas ---------------------- -/

theorem getField_setOwn_self (fields : List (String × Json)) (k : String) (v : Json) :
    getField (setOwn fields k v) k = some v := by
  induction fields with
  | nil => simp [setOwn, getField]
  | cons p rest ih =>
    by_cases h : p.1 = k
    · simp [setOwn, getField, h]
    · simp [setOwn, getField, h, ih]

theorem getField_setOwn_ne (fields : List (String × Json)) (k k' : String) (v : Json)
    (h : k' ≠ k) : getField (setOwn fields k v) k' = getField fields k' := by
  induction fields with
  | nil => simp [setOwn, getField, Ne.symm h]
  | cons p rest ih =>
    by_cases hp : p.1 = k
    · simp [setOwn, getField, hp, Ne.symm h]
    · simp [setOwn, getField, hp, ih]

/- ---------------------- claims ---------------------- -/

/-- C9.  For every request whose HTTP method is not POST, the handler
returns HTTP 405 with an error envelope and the `Allow` header set to
`POST`; the response does not depend on the configuration, the body or
the upstream, so no validation or upstream call takes place. -/
theorem non_post_rejected (cfg : Config) (method : String) (reqBody : Option Json)
    (upstream : Nat → FetchOutcome) (h : method ≠ "POST") :
    handler cfg method reqBody upstream = ⟨405, errObj "Method not allowed", some "POST"⟩ := by
  unfold handler
  rw [if_neg h]

theorem non_post_rejected_witness :
    handler cfgW "GET" bodyW upBlockW = ⟨405, errObj "Method not allowed", some "POST"⟩ :=
  non_post_rejected cfgW "GET" bodyW upBlockW (by decide)

/-- C10.  The server-credential check precedes input validation: when
the resolved API key is missing, every POST request — whatever its
body, in particular empty or oversized text — yields HTTP 500 with the
missing-credential error. -/
theorem missing_key_precedes_validation (cfg : Config) (reqBody : Option Json)
    (upstream : Nat → FetchOutcome) (h : apiKeyMissing cfg = true) :
    handler cfg "POST" reqBody upstream =
      ⟨500, errObj "Missing GEMINI_API_KEY on server", none⟩ := by
  unfold handler
  rw [if_pos rfl, if_pos h]

theorem missing_key_precedes_validation_witness :
    handler ⟨none, some "", true⟩ "POST" (some (.obj [("text", .str "")])) upBlockW =
      ⟨500, errObj "Missing GEMINI_API_KEY on server", none⟩ :=
  missing_key_precedes_validation ⟨none, some "", true⟩ (some (.obj [("text", .str "")]))
    upBlockW (by decide)

/-- C6.  The inbound text is normalized by `normalizeInput` (trim and
collapse of internal whitespace runs); an empty normalized result —
including whitespace-only or missing input — yields HTTP 400, and a
normalized length above 2000 yields HTTP 413. -/
theorem input_validation (cfg : Config) (reqBody : Option Json)
    (upstream : Nat → FetchOutcome) (hm : apiKeyMissing cfg = false) :
    (normalizedOf reqBody = "" →
      handler cfg "POST" reqBody upstream =
        ⟨400, errObj "Missing \u0027text\u0027 (or \u0027userMessage\u0027)", none⟩) ∧
    (2000 < jsLength (normalizedOf reqBody) →
      handler cfg "POST" reqBody upstream = ⟨413, errObj "Input too long", none⟩) := by
  unfold handler normalizedOf
  rw [if_pos rfl, if_neg (by simp [hm])]
  constructor
  · intro h
    rw [if_pos h]
  · intro h
    have hne : normalizeInput (readRawText (effectiveBody reqBody)) ≠ "" := by
      intro he
      rw [he] at h
      simp [jsLength] at h
    rw [if_neg hne, if_pos h]

theorem dropWhile_no_ws (l : List Char) (h : ∀ c ∈ l, isJsWhitespace c = false) :
    l.dropWhile isJsWhitespace = l := by
  cases l with
  | nil => rfl
  | cons c rest => simp [List.dropWhile_cons, h c (by simp)]

theorem collapseGo_no_ws (l : List Char) (h : ∀ c ∈ l, isJsWhitespace c = false) :
    collapseGo false l = l := by
  induction l with
  | nil => rfl
  | cons c rest ih =>
    simp [collapseGo, h c (by simp), ih (fun c hc => h c (by simp [hc]))]

theorem normalizeInput_no_ws (l : List Char) (h : ∀ c ∈ l, isJsWhitespace c = false) :
    normalizeInput (String.mk l) = String.mk l := by
  unfold normalizeInput jsTrim collapseWs
  have hs : (String.mk l).toList = l := rfl
  rw [hs, dropWhile_no_ws l h,
    dropWhile_no_ws l.reverse (fun c hc => h c (List.mem_reverse.mp hc)),
    List.reverse_reverse]
  have hs2 : (String.mk l).toList = l := rfl
  rw [hs2, collapseGo_no_ws l h]

theorem jsLength_bmp (l : List Char) (h : ∀ c ∈ l, c.toNat < 0x10000) :
    jsLength (String.mk l) = l.length := by
  have key : ∀ (l' : List Char), (∀ c ∈ l', c.toNat < 0x10000) → ∀ acc : Nat,
      l'.foldl (fun n c => n + (if 0x10000 ≤ c.toNat then 2 else 1)) acc = acc + l'.length := by
    intro l' hl'
    induction l' with
    | nil => simp
    | cons c rest ih =>
      intro acc
      rw [List.foldl_cons, if_neg (Nat.not_le.mpr (hl' c (by simp)))]
      rw [ih (fun c hc => hl' c (by simp [hc])) (acc + 1)]
      simp
      omega
  have hs : (String.mk l).toList = l := rfl
  unfold jsLength
  rw [hs, key l h 0]
  omega

theorem replicate_a_no_ws : ∀ c ∈ List.replicate 2001 (Char.ofNat 97), isJsWhitespace c = false := by
  intro c hc
  rw [List.eq_of_mem_replicate hc]
  decide

theorem longTextW_ne_empty : longTextW ≠ "" := by
  intro h
  have h2 : (List.replicate 2001 (Char.ofNat 97)).length = ([] : List Char).length := by
    have hl : longTextW.toList = List.replicate 2001 (Char.ofNat 97) := rfl
    have he : ("" : String).toList = [] := rfl
    rw [← hl, ← he, h]
  rw [List.length_replicate, List.length_nil] at h2
  omega

theorem normalizedOf_longBodyW : normalizedOf longBodyW = longTextW := by
  have h1 : readRawText (effectiveBody longBodyW) = longTextW := by
    have hf : stringFieldOrEmpty (effectiveBody longBodyW) "text" = longTextW := rfl
    unfold readRawText
    rw [hf, if_neg longTextW_ne_empty]
  unfold normalizedOf
  rw [h1]
  exact normalizeInput_no_ws _ replicate_a_no_ws

theorem input_validation_witness :
    (handler cfgW "POST" (some (.obj [("text", .str "   ")])) upBlockW =
      ⟨400, errObj "Missing \u0027text\u0027 (or \u0027userMessage\u0027)", none⟩) ∧
    (handler cfgW "POST" longBodyW upBlockW = ⟨413, errObj "Input too long", none⟩) :=
  ⟨(input_validation cfgW (some (.obj [("text", .str "   ")])) upBlockW rfl).1 rfl,
   (input_validation cfgW longBodyW upBlockW rfl).2 (by
      rw [normalizedOf_longBodyW]
      have h1 := jsLength_bmp (List.replicate 2001 (Char.ofNat 97))
        (fun c hc => by rw [List.eq_of_mem_replicate hc]; decide)
      simp only [List.length_replicate] at h1
      have h2 : jsLength longTextW = 2001 := h1
      rw [h2]
      omega)⟩

/-- C8.  A deadline abort of the upstream call yields HTTP 504 with
the timeout message; any other transport-level fetch failure yields
HTTP 504 with the distinct transport message; and the handler's
response depends only on the outcome of the first (hence only)
upstream call, so the call is never retried. -/
theorem upstream_failure_handling (cfg : Config) (reqBody : Option Json)
    (upstream : Nat → FetchOutcome) (hm : apiKeyMissing cfg = false)
    (hne : normalizedOf reqBody ≠ "") (hlen : jsLength (normalizedOf reqBody) ≤ 2000) :
    (upstream 0 = .abortError →
      handler cfg "POST" reqBody upstream = ⟨504, errObj "Upstream timeout", none⟩) ∧
    (∀ m, upstream 0 = .networkError m →
      handler cfg "POST" reqBody upstream = ⟨504, errObj "Upstream fetch failed", none⟩) ∧
    (∀ upstream2 : Nat → FetchOutcome, upstream2 0 = upstream 0 →
      handler cfg "POST" reqBody upstream2 = handler cfg "POST" reqBody upstream) := by
  unfold normalizedOf at hne hlen
  refine ⟨?_, ?_, ?_⟩
  · intro h
    unfold handler
    rw [if_pos rfl, if_neg (by simp [hm]), if_neg hne, if_neg (Nat.not_lt.mpr hlen), h]
    rfl
  · intro m h
    unfold handler
    rw [if_pos rfl, if_neg (by simp [hm]), if_neg hne, if_neg (Nat.not_lt.mpr hlen), h]
    rfl
  · intro upstream2 h
    unfold handler
    rw [h]

theorem upstream_failure_handling_witness :
    handler cfgW "POST" bodyW (fun _ => .abortError) =
      ⟨504, errObj "Upstream timeout", none⟩ :=
  (upstream_failure_handling cfgW bodyW (fun _ => .abortError) rfl (by decide) (by decide)).1 rfl

/-- On a POST with a configured key and valid input, the handler's
response is whatever the post-fetch stage makes of the first upstream
outcome. -/
theorem handler_reaches_fetch (cfg : Config) (reqBody : Option Json)
    (upstream : Nat → FetchOutcome) (hm : apiKeyMissing cfg = false)
    (hne : normalizedOf reqBody ≠ "") (hlen : jsLength (normalizedOf reqBody) ≤ 2000) :
    handler cfg "POST" reqBody upstream = afterFetch cfg.production (upstream 0) := by
  unfold normalizedOf at hne hlen
  unfold handler
  rw [if_pos rfl, if_neg (by simp [hm]), if_neg hne, if_neg (Nat.not_lt.mpr hlen)]

/-- Unfolding of the post-fetch stage on a settled response with a
parsed body. -/
theorem afterFetch_response (p : Bool) (st : Nat) (data : Json) :
    afterFetch p (.response st (some data)) =
      if fetchOk st then
        (if jsTruthyOpt (blockReasonOf data) then ⟨200, safeCrisisReply, none⟩
         else
           match candidateText data with
           | some (.str t) => extractStage t
           | _ => ⟨502, errObj "Invalid upstream response shape", none⟩)
      else ⟨st, upstreamErrBody p st data, none⟩ := rfl

/-- C2 (amended).  For every 2xx upstream response whose
`promptFeedback.blockReason` is truthy, the handler returns HTTP 200
with the single fixed crisis StructuredReply — whatever candidate text
accompanied the block, since `data` is otherwise arbitrary and the
extractor is never consulted. -/
theorem safety_block_overrides (cfg : Config) (reqBody : Option Json)
    (upstream : Nat → FetchOutcome) (st : Nat) (data : Json)
    (hm : apiKeyMissing cfg = false) (hne : normalizedOf reqBody ≠ "")
    (hlen : jsLength (normalizedOf reqBody) ≤ 2000)
    (hup : upstream 0 = .response st (some data)) (hok : fetchOk st = true)
    (hblock : jsTruthyOpt (blockReasonOf data) = true) :
    handler cfg "POST" reqBody upstream = ⟨200, safeCrisisReply, none⟩ := by
  rw [handler_reaches_fetch cfg reqBody upstream hm hne hlen, hup, afterFetch_response,
    if_pos hok, if_pos hblock]

theorem safety_block_overrides_witness :
    handler cfgW "POST" bodyW upBlockW = ⟨200, safeCrisisReply, none⟩ :=
  safety_block_overrides cfgW bodyW upBlockW 200 dataBlockW rfl (by decide) (by decide)
    rfl rfl rfl

/-- C2 (counterexample).  A `promptFeedback.blockReason` that is
present but falsy (here the empty string) does not trigger the safety
path: the handler proceeds to extraction and returns the ordinary
fallback, whose `crisisFlag` is `false` and `escalation` is `none`
rather than the fixed crisis object. -/
theorem block_reason_present_not_sufficient :
    blockReasonOf dataEmptyBlockW = some (.str "") ∧
    jsGet (handler cfgW "POST" bodyW
      (fun _ => .response 200 (some dataEmptyBlockW))).body "crisisFlag" =
        some (.bool false) ∧
    jsGet (handler cfgW "POST" bodyW
      (fun _ => .response 200 (some dataEmptyBlockW))).body "escalation" =
        some (.str "none") :=
  ⟨rfl, rfl, rfl⟩

/-- C4.  When the candidate text is a string that no recovery step can
parse (`coerceJsonFromModel` yields `null`), the handler returns HTTP
200 with the fixed fallback StructuredReply: `feeling_label` is
`unsure`, `skill_tag` is empty, `escalation` is `none` and
`crisisFlag` is `false`. -/
theorem unparseable_text_fallback (cfg : Config) (reqBody : Option Json)
    (upstream : Nat → FetchOutcome) (st : Nat) (data : Json) (t : String)
    (hm : apiKeyMissing cfg = false) (hne : normalizedOf reqBody ≠ "")
    (hlen : jsLength (normalizedOf reqBody) ≤ 2000)
    (hup : upstream 0 = .response st (some data)) (hok : fetchOk st = true)
    (hnb : jsTruthyOpt (blockReasonOf data) = false)
    (htext : candidateText data = some (.str t))
    (hfail : coerceJsonFromModel (.str t) = none) :
    handler cfg "POST" reqBody upstream = ⟨200, fallbackWithFlag, none⟩ := by
  rw [handler_reaches_fetch cfg reqBody upstream hm hne hlen, hup, afterFetch_response,
    if_pos hok, if_neg (by simp [hnb]), htext]
  show extractStage t = _
  unfold extractStage
  rw [hfail]
  rfl

theorem unparseable_text_fallback_witness :
    handler cfgW "POST" bodyW (upTextW "I cannot help with that.") =
      ⟨200, fallbackWithFlag, none⟩ :=
  unparseable_text_fallback cfgW bodyW (upTextW "I cannot help with that.") 200
    (mkCandidateData "I cannot help with that.") "I cannot help with that."
    rfl (by decide) (by decide) rfl rfl rfl rfl rfl

/-- C5 (counterexample).  Upstream text that parses as the truthy but
empty JSON object is used as-is: the handler returns HTTP 200 whose
body carries only the derived `crisisFlag`, with `message_student`
(and every other required field) absent — no fallback value fills the
gap. -/
theorem parsed_object_fields_not_filled :
    handler cfgW "POST" bodyW (upTextW "\x7b\x7d") =
      ⟨200, .obj [("crisisFlag", .bool false)], none⟩ ∧
    jsGet (handler cfgW "POST" bodyW (upTextW "\x7b\x7d")).body "message_student" = none :=
  ⟨rfl, rfl⟩

/-- C5 (amended).  The fixed safety-block and extraction-fallback
bodies contain every required StructuredReply field; but a candidate
text that parses to a truthy JSON object is returned as-is with only
`crisisFlag` added, so required fields it omits stay absent. -/
theorem reply_completeness_by_path (cfg : Config) (reqBody : Option Json)
    (upstream : Nat → FetchOutcome) (st : Nat) (data : Json)
    (hm : apiKeyMissing cfg = false) (hne : normalizedOf reqBody ≠ "")
    (hlen : jsLength (normalizedOf reqBody) ≤ 2000)
    (hup : upstream 0 = .response st (some data)) (hok : fetchOk st = true) :
    (jsTruthyOpt (blockReasonOf data) = true →
      handler cfg "POST" reqBody upstream = ⟨200, safeCrisisReply, none⟩ ∧
      hasAllRequired safeCrisisReply = true) ∧
    (∀ t : String, jsTruthyOpt (blockReasonOf data) = false →
      candidateText data = some (.str t) →
      (jsTruthyOpt (coerceJsonFromModel (.str t)) = false →
        handler cfg "POST" reqBody upstream = ⟨200, fallbackWithFlag, none⟩ ∧
        hasAllRequired fallbackWithFlag = true) ∧
      (∀ fields, coerceJsonFromModel (.str t) = some (.obj fields) →
        handler cfg "POST" reqBody upstream =
          ⟨200, .obj (setOwn fields "crisisFlag"
            (.bool (isCrisisEscalation fields))), none⟩)) := by
  rw [handler_reaches_fetch cfg reqBody upstream hm hne hlen, hup, afterFetch_response,
    if_pos hok]
  constructor
  · intro hb
    rw [if_pos hb]
    exact ⟨rfl, rfl⟩
  · intro t hb htext
    rw [if_neg (by simp [hb]), htext]
    constructor
    · intro hfalsy
      refine ⟨?_, rfl⟩
      show extractStage t = _
      unfold extractStage
      cases hc : coerceJsonFromModel (.str t) with
      | none => rfl
      | some v =>
        rw [hc] at hfalsy
        have hv : jsTruthy v = false := hfalsy
        simp only [hv]
        rfl
    · intro fields hc
      show extractStage t = _
      unfold extractStage
      rw [hc]
      rfl

theorem reply_completeness_by_path_witness :
    handler cfgW "POST" bodyW upBlockW = ⟨200, safeCrisisReply, none⟩ ∧
    hasAllRequired safeCrisisReply = true :=
  (reply_completeness_by_path cfgW bodyW upBlockW 200 dataBlockW rfl (by decide) (by decide)
    rfl rfl).1 rfl

/-- C7 (counterexample).  A body whose `text` field is the present
string `""` is not the field used: JavaScript `||` falls through on
the empty string, so the handler reads `userMessage` instead. -/
theorem text_field_empty_falls_through :
    jsGet (.obj [("text", .str ""), ("userMessage", .str "hi")]) "text" = some (.str "") ∧
    readRawText (.obj [("text", .str ""), ("userMessage", .str "hi")]) = "hi" :=
  ⟨rfl, rfl⟩

/-- C7 (amended).  The handler accepts the text under `text` or
`userMessage`: `text` is used whenever it is a present non-empty
string, and `userMessage` is consulted exactly when `text` is absent,
not a string, or the empty string. -/
theorem raw_text_selection (body : Json) :
    (∀ s, jsGet body "text" = some (.str s) → s ≠ "" → readRawText body = s) ∧
    (stringFieldOrEmpty body "text" = "" →
      readRawText body = stringFieldOrEmpty body "userMessage") := by
  constructor
  · intro s hs hne
    have ht : stringFieldOrEmpty body "text" = s := by
      unfold stringFieldOrEmpty
      rw [hs]
    show (if stringFieldOrEmpty body "text" = "" then
        stringFieldOrEmpty body "userMessage" else stringFieldOrEmpty body "text") = s
    rw [ht, if_neg hne]
  · intro h
    show (if stringFieldOrEmpty body "text" = "" then
        stringFieldOrEmpty body "userMessage" else stringFieldOrEmpty body "text") =
      stringFieldOrEmpty body "userMessage"
    rw [h, if_pos rfl]

theorem raw_text_selection_witness :
    readRawText (.obj [("text", .str "hello"), ("userMessage", .str "ignored")]) = "hello" :=
  (raw_text_selection (.obj [("text", .str "hello"), ("userMessage", .str "ignored")])).1
    "hello" rfl (by decide)

theorem jsGet_arr_eq_none (xs : List Json) (key : String)
    (h1 : key ≠ "length") (h2 : decimalIndex? key = none) : jsGet (.arr xs) key = none := by
  have step1 : jsGet (.arr xs) key =
      (match decimalIndex? key with | some n => xs.get? n | none => none) := if_neg h1
  rw [step1, h2]

theorem isCrisisEscalation_iff (fields : List (String × Json)) :
    isCrisisEscalation fields = true ↔
      getField fields "escalation" = some (.str "crisis-988") := by
  unfold isCrisisEscalation
  cases hf : getField fields "escalation" with
  | none => simp
  | some j =>
    cases j with
    | str s => simp
    | null => simp
    | bool b => simp
    | num m e => simp
    | arr xs => simp
    | obj fs => simp

theorem crisisConsistent_finishReply (v : Json) :
    (finishReply v).status = 200 → crisisConsistent (finishReply v).body := by
  cases v with
  | obj fields =>
    intro _
    unfold finishReply crisisConsistent
    show getField (setOwn fields "crisisFlag" (.bool (isCrisisEscalation fields)))
        "crisisFlag" = some (.bool true) ↔
      getField (setOwn fields "crisisFlag" (.bool (isCrisisEscalation fields)))
        "escalation" = some (.str "crisis-988")
    rw [getField_setOwn_self, getField_setOwn_ne _ _ _ _ (by decide)]
    rw [← isCrisisEscalation_iff]
    simp
  | arr xs =>
    intro _
    unfold finishReply crisisConsistent
    rw [jsGet_arr_eq_none xs "crisisFlag" (by decide) (by decide),
      jsGet_arr_eq_none xs "escalation" (by decide) (by decide)]
    simp
  | null => intro h; simp [finishReply] at h
  | bool b => intro h; simp [finishReply] at h
  | num m e => intro h; simp [finishReply] at h
  | str s => intro h; simp [finishReply] at h

/-- Every branch of the extraction stage returns through
`finishReply`. -/
theorem extractStage_eq_finishReply (t : String) :
    ∃ v, extractStage t = finishReply v := by
  unfold extractStage
  cases coerceJsonFromModel (.str t) with
  | none => exact ⟨fallbackReply, rfl⟩
  | some v =>
    by_cases ht : jsTruthy v
    · exact ⟨v, if_pos ht⟩
    · exact ⟨fallbackReply, if_neg ht⟩

theorem crisisConsistent_extractStage (t : String) :
    (extractStage t).status = 200 → crisisConsistent (extractStage t).body := by
  obtain ⟨v, hv⟩ := extractStage_eq_finishReply t
  rw [hv]
  exact crisisConsistent_finishReply v

theorem crisisConsistent_afterFetch (p : Bool) (out : FetchOutcome) :
    (afterFetch p out).status = 200 → crisisConsistent (afterFetch p out).body := by
  cases out with
  | abortError => intro h; simp [afterFetch] at h
  | networkError m => intro h; simp [afterFetch] at h
  | response st ob =>
    cases ob with
    | none => intro h; simp [afterFetch] at h
    | some data =>
      rw [afterFetch_response]
      by_cases hok : fetchOk st
      · rw [if_pos hok]
        by_cases hb : jsTruthyOpt (blockReasonOf data)
        · rw [if_pos hb]
          exact fun _ => ⟨fun _ => rfl, fun _ => rfl⟩
        · rw [if_neg hb]
          cases hct : candidateText data with
          | none => intro h; simp at h
          | some j =>
            cases j with
            | str t => exact crisisConsistent_extractStage t
            | null => intro h; simp at h
            | bool b => intro h; simp at h
            | num m e => intro h; simp at h
            | arr xs => intro h; simp at h
            | obj fs => intro h; simp at h
      · rw [if_neg hok]
        intro h
        have hst : st = 200 := h
        rw [hst] at hok
        exact absurd rfl hok

/-- C1.  Every HTTP 200 reply the handler returns — parsed, fallback
and safety-block paths alike — satisfies `crisisFlag = true` iff
`escalation = "crisis-988"`; the flag is recomputed by the pipeline,
never taken from the upstream model's output. -/
theorem crisisFlag_iff_escalation (cfg : Config) (method : String) (reqBody : Option Json)
    (upstream : Nat → FetchOutcome)
    (h : (handler cfg method reqBody upstream).status = 200) :
    crisisConsistent (handler cfg method reqBody upstream).body := by
  unfold handler at h ⊢
  by_cases hpost : method = "POST"
  · rw [if_pos hpost] at h ⊢
    by_cases hkey : apiKeyMissing cfg
    · rw [if_pos hkey] at h ⊢
      exact absurd h (by decide)
    · rw [if_neg hkey] at h ⊢
      by_cases hu : normalizeInput (readRawText (effectiveBody reqBody)) = ""
      · rw [if_pos hu] at h ⊢
        exact absurd h (by decide)
      · rw [if_neg hu] at h ⊢
        by_cases hlen : 2000 < jsLength (normalizeInput (readRawText (effectiveBody reqBody)))
        · rw [if_pos hlen] at h ⊢
          exact absurd h (by decide)
        · rw [if_neg hlen] at h ⊢
          exact crisisConsistent_afterFetch cfg.production (upstream 0) h
  · rw [if_neg hpost] at h ⊢
    exact absurd h (by decide)

theorem crisisFlag_iff_escalation_witness :
    crisisConsistent (handler cfgW "POST" bodyW (upTextW "\x7b\x7d")).body :=
  crisisFlag_iff_escalation cfgW "POST" bodyW (upTextW "\x7b\x7d") (by rfl)

theorem firstIdxOf_cons (t c : Char) (rest : List Char) :
    firstIdxOf t (c :: rest) =
      if c = t then some 0 else (firstIdxOf t rest).map (· + 1) := rfl

theorem lastIdxOf_cons (t c : Char) (rest : List Char) :
    lastIdxOf t (c :: rest) =
      match lastIdxOf t rest with
      | some j => some (j + 1)
      | none => if c = t then some 0 else none := rfl

theorem regexBraceMatch_cons (c : Char) (rest : List Char) :
    regexBraceMatch (c :: rest) =
      if c = openBrace then
        match lastIdxOf closeBrace rest with
        | some j => some (c :: rest.take (j + 1))
        | none => regexBraceMatch rest
      else regexBraceMatch rest := rfl

/-- The regex engine's leftmost-greedy search for the brace span
computes exactly the first-`\x7b`-to-last-`\x7d` substring the
specification describes. -/
theorem regexBraceMatch_eq_spec (cs : List Char) :
    regexBraceMatch cs = specBraceSpanList cs := by
  induction cs with
  | nil => rfl
  | cons c rest ih =>
    by_cases hc : c = openBrace
    · subst hc
      rw [regexBraceMatch_cons, if_pos rfl]
      unfold specBraceSpanList
      rw [firstIdxOf_cons, if_pos rfl, lastIdxOf_cons]
      cases hl : lastIdxOf closeBrace rest with
      | some j =>
        have hne : openBrace ≠ closeBrace := by decide
        simp [hne, List.take_succ_cons]
      | none =>
        have hne : openBrace ≠ closeBrace := by decide
        rw [ih]
        unfold specBraceSpanList
        rw [hl]
        cases hf : firstIdxOf openBrace rest <;> simp [hne]
    · rw [regexBraceMatch_cons, if_neg hc, ih]
      unfold specBraceSpanList
      rw [firstIdxOf_cons, if_neg hc, lastIdxOf_cons]
      cases hf : firstIdxOf openBrace rest with
      | none =>
        cases hl : lastIdxOf closeBrace rest with
        | some j => simp
        | none => by_cases hcc : c = closeBrace <;> simp [hcc]
      | some i =>
        cases hl : lastIdxOf closeBrace rest with
        | some j =>
          by_cases hij : i < j
          · simp [hij, Nat.succ_lt_succ hij, List.drop_succ_cons, Nat.succ_sub_succ]
          · have : ¬ (i + 1 < j + 1) := by omega
            simp [hij, this]
        | none => by_cases hcc : c = closeBrace <;> simp [hcc]

/-- C3.  For every string input, the extractor follows the
specification's recovery order: strip a leading (optionally
`json`-tagged) fence and a trailing fence and trim, normalize
typographic quotation marks, attempt a direct JSON parse, and only on
failure parse the greedy first-`\x7b`-to-last-`\x7d` span. -/
theorem extractor_follows_spec (s : String) :
    coerceJsonFromModel (.str s) = extractorSpec s := by
  unfold coerceJsonFromModel extractorSpec cleanModelText braceSpanMatch specBraceSpan
  simp only [regexBraceMatch_eq_spec]

end ChatApi
